import Mathlib

/-!
Shallow embedding of gestion/views/api_views.py (repository aplicacion-lilis).

The Django ORM store is modelled as an explicit record of rows (`Db`); each
endpoint becomes a pure function from the store (plus request data) to a
response outcome and the resulting store.  Monetary `Decimal` values are
modelled as `Int` (nullable columns as `Option Int`); JSON-supplied
quantities are `Int` since the endpoints perform no sign check on them.
`Queryset.first()` / `.get()` become `List.find?` on the row list, which is
faithful under the primary-key uniqueness the database enforces.
-/

namespace Lilis

/-- Row of the Product table: id, name, sku, nullable sale price, active flag. -/
structure Product where
  id : Nat
  name : String
  sku : String
  precio_venta : Option Int
  is_active : Bool
deriving DecidableEq

/-- Row of the Zone table (warehouse link omitted: no modelled endpoint reads it). -/
structure Zone where
  id : Nat
  name : String
  is_active : Bool
deriving DecidableEq

/-- Row of the Inventory table, keyed by (product, zone). -/
structure Inventory where
  productId : Nat
  zoneId : Nat
  quantity : Int
deriving DecidableEq

/-- Row of the Sale table. -/
structure Sale where
  id : Nat
  clientId : Option Nat
  userId : Nat
  total_amount : Int
deriving DecidableEq

/-- Row of the SaleItem table. -/
structure SaleItem where
  saleId : Nat
  productId : Nat
  quantity : Int
  price_at_sale : Int
deriving DecidableEq

/-- Row of the SupplierOrder table. -/
structure SupplierOrder where
  id : Nat
  supplierId : Nat
  status : String
deriving DecidableEq

/-- Row of the SupplierOrderItem table. -/
structure SupplierOrderItem where
  orderId : Nat
  productId : Nat
  quantity : Int
  unit_price : Option Int
deriving DecidableEq

/-- Row of the ProductSupplier table: nullable cost. -/
structure ProductSupplier where
  productId : Nat
  supplierId : Nat
  costo : Option Int
deriving DecidableEq

/-- The persistent store: one list of rows per table. -/
structure Db where
  zones : List Zone
  products : List Product
  inventories : List Inventory
  sales : List Sale
  saleItems : List SaleItem
  supplierOrders : List SupplierOrder
  supplierOrderItems : List SupplierOrderItem
  productSuppliers : List ProductSupplier
deriving DecidableEq

/-- Boolean prefix test on character lists, used for substring matching. -/
def prefB : List Char → List Char → Bool
  | [], _ => true
  | _ :: _, [] => false
  | a :: as, b :: bs => a == b && prefB as bs

/-- Boolean infix (substring) test on character lists. -/
def infB (needle : List Char) : List Char → Bool
  | [] => needle.isEmpty
  | b :: bs => prefB needle (b :: bs) || infB needle bs

/-- ASCII lower-casing of one character (the case folding the icontains
lookup needs for the zone-name token and the search queries). -/
def lowerChar (c : Char) : Char :=
  if 65 ≤ c.toNat ∧ c.toNat ≤ 90 then Char.ofNat (c.toNat + 32) else c

/-- Case-insensitive containment test, modelling the icontains lookup of the ORM. -/
def containsCI (hay pat : String) : Bool :=
  infB (pat.data.map lowerChar) (hay.data.map lowerChar)

/-- Product.objects.get(id=pid): first row with the id, active or not
(the commit pass of process_sale looks products up without the active filter). -/
def findProduct (ps : List Product) (pid : Nat) : Option Product :=
  ps.find? (fun p => p.id == pid)

/-- Product.objects.get(id=pid, is_active=True): first active row with the id. -/
def findActiveProduct (ps : List Product) (pid : Nat) : Option Product :=
  ps.find? (fun p => p.id == pid && p.is_active)

/-- Inventory.objects.get(product=pid, zone=zid). -/
def findInv (invs : List Inventory) (pid zid : Nat) : Option Inventory :=
  invs.find? (fun i => i.productId == pid && i.zoneId == zid)

/-- Sale price used by the commit pass: product.precio_venta or Decimal 0
(None and 0 are both falsy in Python, and both yield 0 here). -/
def currentPrice (ps : List Product) (pid : Nat) : Int :=
  match findProduct ps pid with
  | some p => p.precio_venta.getD 0
  | none => 0

/-- Helper get_sales_zone of api_views.py: first active zone whose name
contains "venta" case-insensitively, else the first active zone. -/
def get_sales_zone (db : Db) : Option Zone :=
  match db.zones.find? (fun z => containsCI z.name "venta" && z.is_active) with
  | some z => some z
  | none => db.zones.find? (fun z => z.is_active)

/-- Cart line of the checkout payload: {id, quantity}.  The quantity comes
straight from JSON, so it may be zero or negative. -/
structure CartLine where
  id : Nat
  quantity : Int
deriving DecidableEq

/-- Validation pass of process_sale for one cart line: at most one error
message, produced exactly where the source appends to its errors list. -/
def validateLine (db : Db) (zid : Nat) (l : CartLine) : List String :=
  match findActiveProduct db.products l.id with
  | none => ["Producto con ID " ++ toString l.id ++ " no encontrado"]
  | some p =>
    match findInv db.inventories l.id zid with
    | none => ["No hay stock de " ++ p.name ++ " en la zona de ventas"]
    | some inv =>
      if inv.quantity < l.quantity then
        ["Stock insuficiente para " ++ p.name ++ ". Disponible: " ++
          toString inv.quantity ++ ", Solicitado: " ++ toString l.quantity]
      else []

/-- Validation pass over the whole cart, collecting every per-line error. -/
def validateCart (db : Db) (zid : Nat) : List CartLine → List String
  | [] => []
  | l :: rest => validateLine db zid l ++ validateCart db zid rest

/-- Stock decrement of the commit pass: inventory.quantity -= quantity on the
row fetched by Inventory.objects.get, i.e. the first row with this key. -/
def updateInventory (invs : List Inventory) (pid zid : Nat) (q : Int) : List Inventory :=
  match invs with
  | [] => []
  | i :: rest =>
    if i.productId == pid && i.zoneId == zid then
      { i with quantity := i.quantity - q } :: rest
    else
      i :: updateInventory rest pid zid q

/-- Commit pass of process_sale: per cart line, re-fetch product (without the
active filter) and inventory, snapshot the price into a SaleItem, decrement
stock, and accumulate the running total.  A failed lookup raises in Python and
rolls the transaction back; that is the none result here. -/
def commitLines (zid saleId : Nat) : Db → Int → List CartLine → Option (Db × Int)
  | db, total, [] => some (db, total)
  | db, total, l :: rest =>
    match findProduct db.products l.id with
    | none => none
    | some p =>
      match findInv db.inventories l.id zid with
      | none => none
      | some _ =>
        let sale_price := p.precio_venta.getD 0
        let db1 : Db :=
          { db with
            saleItems := db.saleItems ++ [⟨saleId, l.id, l.quantity, sale_price⟩],
            inventories := updateInventory db.inventories l.id zid l.quantity }
        commitLines zid saleId db1 (total + sale_price * l.quantity) rest

/-- Response of the checkout endpoint, reduced to what the JSON carries:
success with the new sale id and total, or an HTTP status plus message. -/
inductive SaleOutcome where
  | ok (saleId : Nat) (total : Int)
  | err (code : Nat) (msg : String)
deriving DecidableEq

/-- Endpoint process_sale of api_views.py: reject an empty cart, resolve the
sales zone, run the read-only validation pass collecting all errors, then
commit atomically (the sale row carries the final total; on any commit
failure the original store is returned, modelling transaction.atomic). -/
def process_sale (db : Db) (userId : Nat) (clientId : Option Nat)
    (cart : List CartLine) : SaleOutcome × Db :=
  if cart.isEmpty then
    (.err 400 "El carrito está vacío", db)
  else
    match get_sales_zone db with
    | none => (.err 500 "Zona de ventas no configurada", db)
    | some zone =>
      match validateCart db zone.id cart with
      | [] =>
        let saleId := db.sales.length + 1
        match commitLines zone.id saleId db 0 cart with
        | none => (.err 500 "Error del servidor", db)
        | some (db2, total) =>
          (.ok saleId total,
            { db2 with sales := db2.sales ++ [⟨saleId, clientId, userId, total⟩] })
      | e :: rest => (.err 400 (String.intercalate "<br>" (e :: rest)), db)

/-- Total stock of a product as the search and listing endpoints compute it:
sum of quantity over all of its inventory rows, zero or negative included. -/
def totalStock (invs : List Inventory) (pid : Nat) : Int :=
  ((invs.filter (fun i => i.productId == pid)).map (fun i => i.quantity)).sum

/-- Projection returned per product by the search and listing endpoints. -/
structure SearchResult where
  id : Nat
  name : String
  sku : String
  price : Int
  stock : Int
deriving DecidableEq

/-- Endpoint search_products_for_sale: queries shorter than 2 characters
return an empty list; otherwise active products matching name or sku
(icontains), first 10, each with total stock summed over all zones. -/
def search_products_for_sale (db : Db) (query : String) : List SearchResult :=
  if query.length < 2 then []
  else
    ((db.products.filter
        (fun p => (containsCI p.name query || containsCI p.sku query) && p.is_active)).take 10).map
      (fun p => ⟨p.id, p.name, p.sku, p.precio_venta.getD 0, totalStock db.inventories p.id⟩)

/-- Endpoint get_all_products_for_sale: active products ordered by name,
one page of size psize, same projection as the search endpoint. -/
def get_all_products_for_sale (db : Db) (page psize : Nat) : List SearchResult :=
  (((db.products.filter (fun p => p.is_active)).mergeSort
      (fun a b => a.name ≤ b.name)).drop ((page - 1) * psize) |>.take psize).map
    (fun p => ⟨p.id, p.name, p.sku, p.precio_venta.getD 0, totalStock db.inventories p.id⟩)

/-- Entry of the stock_info list of get_product_stock_info. -/
structure ZoneStock where
  zoneId : Nat
  stock : Int
deriving DecidableEq

/-- Endpoint get_product_stock_info: only inventory rows of the product with
quantity strictly greater than 0 are listed. -/
def get_product_stock_info (db : Db) (pid : Nat) : List ZoneStock :=
  (db.inventories.filter (fun i => i.productId == pid && 0 < i.quantity)).map
    (fun i => ⟨i.zoneId, i.quantity⟩)

/-- Unit price resolution of add_product_to_order: the supplier cost when it
is truthy (not None and not 0), else the sale price. -/
def resolveUnitPrice (costo precio : Option Int) : Option Int :=
  match costo with
  | some c => if c == 0 then precio else some c
  | none => precio

/-- Upsert update branch: add the quantity to the first existing row for the
(order, product) pair and overwrite its unit price. -/
def updateOrderItem (items : List SupplierOrderItem) (oid pid : Nat) (q : Int)
    (up : Option Int) : List SupplierOrderItem :=
  match items with
  | [] => []
  | it :: rest =>
    if it.orderId == oid && it.productId == pid then
      { it with quantity := it.quantity + q, unit_price := up } :: rest
    else
      it :: updateOrderItem rest oid pid q up

/-- Response of add_product_to_order, reduced to the fields the claims need:
the action tag ("created" or "updated") and the upserted item. -/
inductive OrderOutcome where
  | ok (action : String) (item : SupplierOrderItem)
  | err (code : Nat) (msg : String)
deriving DecidableEq

/-- Endpoint add_product_to_order of api_views.py.  hasPerm models the
superuser / admin / bodega role check on the request user. -/
def add_product_to_order (db : Db) (hasPerm : Bool) (orderPk productId : Nat)
    (quantity : Int) : OrderOutcome × Db :=
  if !hasPerm then
    (.err 403 "No tienes permisos", db)
  else
    match db.supplierOrders.find? (fun o => o.id == orderPk) with
    | none => (.err 404 "Orden no encontrada", db)
    | some order =>
      if order.status != "PENDING" then
        (.err 400 "No se pueden modificar órdenes que no están pendientes", db)
      else if quantity ≤ 0 then
        (.err 400 "La cantidad debe ser mayor a 0", db)
      else
        match findActiveProduct db.products productId with
        | none => (.err 404 "Producto no encontrado", db)
        | some product =>
          match db.productSuppliers.find?
              (fun s => s.productId == productId && s.supplierId == order.supplierId) with
          | none => (.err 400 "Este producto no pertenece al proveedor de la orden", db)
          | some ps =>
            let unit_price := resolveUnitPrice ps.costo product.precio_venta
            match db.supplierOrderItems.find?
                (fun it => it.orderId == orderPk && it.productId == productId) with
            | some _ =>
              let items1 := updateOrderItem db.supplierOrderItems orderPk productId quantity unit_price
              match items1.find? (fun it => it.orderId == orderPk && it.productId == productId) with
              | some it => (.ok "updated" it, { db with supplierOrderItems := items1 })
              | none => (.ok "updated" ⟨orderPk, productId, quantity, unit_price⟩,
                  { db with supplierOrderItems := items1 })
            | none =>
              (.ok "created" ⟨orderPk, productId, quantity, unit_price⟩,
                { db with supplierOrderItems :=
                    db.supplierOrderItems ++ [⟨orderPk, productId, quantity, unit_price⟩] })

/-! Concrete rows used by witnesses and counterexample-style evaluations. -/

/-- Example active zone whose name matches the sales-zone heuristic. -/
def zoneV : Zone := ⟨1, "Zona Ventas", true⟩

/-- Example active product with id 5 and sale price 1000. -/
def prod5 : Product := ⟨5, "Producto 5", "SKU5", some 1000, true⟩

/-- Example inventory row: product 5 in zone 1 with quantity 10. -/
def inv51 : Inventory := ⟨5, 1, 10⟩

/-- Example store holding the spec scenario: one sales zone, product 5 at
price 1000 with stock 10. -/
def dbEx : Db := ⟨[zoneV], [prod5], [inv51], [], [], [], [], []⟩

/-- Example supplier order in a non-pending state. -/
def orderR : SupplierOrder := ⟨1, 2, "RECEIVED"⟩

/-- Example pending supplier order. -/
def orderP : SupplierOrder := ⟨1, 2, "PENDING"⟩

/-- Example supplier relationship for product 5 with cost 700. -/
def psEx : ProductSupplier := ⟨5, 2, some 700⟩

/-- Example store with a non-pending order for product 5. -/
def dbOrdR : Db := ⟨[], [prod5], [], [], [], [orderR], [], [psEx]⟩

/-- Example store with a pending order for product 5 and no items yet. -/
def dbOrdP : Db := ⟨[], [prod5], [], [], [], [orderP], [], [psEx]⟩

/-! Helper lemmas about the embedded operations. -/

/-- Decrementing an inventory row leaves the (product, zone) keys of the list
unchanged. -/
theorem updateInventory_keys (invs : List Inventory) (pid zid : Nat) (q : Int) :
    (updateInventory invs pid zid q).map (fun i => (i.productId, i.zoneId)) =
      invs.map (fun i => (i.productId, i.zoneId)) := by
  induction invs with
  | nil => rfl
  | cons i rest ih =>
    by_cases h : (i.productId == pid && i.zoneId == zid) = true
    · simp [updateInventory, h]
    · simp [updateInventory, h, ih]

/-- Looking an inventory row up after a decrement of the same key returns the
row with its quantity reduced. -/
theorem findInv_updateInventory (invs : List Inventory) (pid zid : Nat) (q : Int)
    (inv : Inventory) (h : findInv invs pid zid = some inv) :
    findInv (updateInventory invs pid zid q) pid zid =
      some { inv with quantity := inv.quantity - q } := by
  induction invs with
  | nil => simp [findInv] at h
  | cons i rest ih =>
    by_cases hk : (i.productId == pid && i.zoneId == zid) = true
    · simp only [findInv, List.find?_cons, hk] at h
      cases h
      simp [updateInventory, findInv, List.find?_cons, hk]
    · have hk' : (i.productId == pid && i.zoneId == zid) = false := by
        simpa using hk
      simp only [findInv, List.find?_cons, hk'] at h
      simp only [updateInventory, findInv]
      rw [if_neg hk]
      simp only [List.find?_cons, hk']
      exact ih h

/-! C3: empty cart. -/

/-- C3: for every request whose cart is empty, process_sale returns the 400
validation error and the store is unchanged (no Sale, SaleItem, or Inventory
state is created or modified). -/
theorem process_sale_empty_cart (db : Db) (userId : Nat) (clientId : Option Nat) :
    process_sale db userId clientId [] = (.err 400 "El carrito está vacío", db) := rfl

/-! C4: duplicate cart lines can drive inventory negative. -/

/-- C4: the validation pass of process_sale checks each cart line
independently against the same inventory row, so the cart holding product 5
twice with quantity 6 each passes validation against stock 10; the checkout
succeeds and the resulting inventory quantity is -2, which is negative, so
checkout does not preserve inventory non-negativity. -/
theorem process_sale_duplicate_lines_negative_stock :
    (process_sale dbEx 7 none [⟨5, 6⟩, ⟨5, 6⟩]).1 = .ok 1 12000 ∧
    findInv (process_sale dbEx 7 none [⟨5, 6⟩, ⟨5, 6⟩]).2.inventories 5 1 =
      some ⟨5, 1, -2⟩ ∧
    (⟨5, 1, -2⟩ : Inventory).quantity < 0 := by
  refine ⟨rfl, rfl, by decide⟩

/-! C5: non-positive quantities are not rejected. -/

/-- C5: a cart line with zero or negative quantity passes the stock
validation whenever the sales-zone inventory row of its product exists with
non-negative quantity, and the commit-pass subtraction of a negative quantity
strictly increases the stock of that row. -/
theorem nonpositive_quantity_accepted (db : Db) (zid : Nat) (l : CartLine)
    (p : Product) (inv : Inventory)
    (hq : l.quantity ≤ 0)
    (hp : findActiveProduct db.products l.id = some p)
    (hi : findInv db.inventories l.id zid = some inv)
    (hnn : 0 ≤ inv.quantity) :
    validateLine db zid l = [] ∧
    findInv (updateInventory db.inventories l.id zid l.quantity) l.id zid =
      some { inv with quantity := inv.quantity - l.quantity } ∧
    (l.quantity < 0 → inv.quantity < inv.quantity - l.quantity) := by
  refine ⟨?_, findInv_updateInventory _ _ _ _ _ hi, fun hneg => by omega⟩
  simp only [validateLine, hp, hi]
  rw [if_neg (by omega)]

/-- Witness for C5: with product 5 in stock 10, the line asking for -3 units
passes validation and the commit pass raises the stock from 10 to 13. -/
theorem nonpositive_quantity_accepted_witness :
    validateLine dbEx 1 ⟨5, -3⟩ = [] ∧
    findInv (updateInventory dbEx.inventories 5 1 (-3)) 5 1 =
      some { inv51 with quantity := inv51.quantity - (-3) } ∧
    ((-3 : Int) < 0 → inv51.quantity < inv51.quantity - (-3)) :=
  nonpositive_quantity_accepted dbEx 1 ⟨5, -3⟩ prod5 inv51 (by decide) rfl rfl (by decide)

/-! C7: non-pending orders reject additions. -/

/-- C7: for every supplier order whose status is not PENDING,
add_product_to_order fails with the 400 validation error and the store — in
particular the set of SupplierOrderItem rows — is unchanged. -/
theorem add_to_nonpending_rejected (db : Db) (orderPk pid : Nat) (q : Int)
    (order : SupplierOrder)
    (ho : db.supplierOrders.find? (fun o => o.id == orderPk) = some order)
    (hst : order.status ≠ "PENDING") :
    add_product_to_order db true orderPk pid q =
      (.err 400 "No se pueden modificar órdenes que no están pendientes", db) := by
  rw [add_product_to_order]
  simp only [Bool.not_true, Bool.false_eq_true, if_false, ho]
  rw [if_pos]
  simp [bne_iff_ne, hst]

/-- Witness for C7: adding product 5 to the RECEIVED order 1 fails and leaves
the store unchanged. -/
theorem add_to_nonpending_rejected_witness :
    add_product_to_order dbOrdR true 1 5 3 =
      (.err 400 "No se pueden modificar órdenes que no están pendientes", dbOrdR) :=
  add_to_nonpending_rejected dbOrdR 1 5 3 orderR rfl (by decide)

/-! C10: short search queries. -/

/-- C10: for every query of fewer than 2 characters,
search_products_for_sale returns the empty product list whatever the store
holds, so no store lookup influences the response. -/
theorem search_short_query_empty (db : Db) (query : String)
    (h : query.length < 2) :
    search_products_for_sale db query = [] := by
  rw [search_products_for_sale, if_pos h]

/-- Witness for C10: the one-character query "r" matches product names of the
example store, yet the search returns the empty list. -/
theorem search_short_query_empty_witness :
    search_products_for_sale dbEx "r" = [] :=
  search_short_query_empty dbEx "r" (by decide)

/-! C8: sales-zone resolution. -/

/-- Example store whose only zone is inactive, so no sales zone resolves. -/
def dbNoZone : Db := ⟨[⟨1, "Bodega", false⟩], [prod5], [], [], [], [], [], []⟩

/-- C8: the sales zone is resolved per call as the first active zone whose
name contains the token venta case-insensitively, else the first active zone;
when no active zone exists the resolution yields none and process_sale fails
with the 500 server error without touching the store. -/
theorem get_sales_zone_resolution (db : Db) (userId : Nat) (clientId : Option Nat)
    (cart : List CartLine) :
    (∀ z, db.zones.find? (fun z => containsCI z.name "venta" && z.is_active) = some z →
        get_sales_zone db = some z)
  ∧ (db.zones.find? (fun z => containsCI z.name "venta" && z.is_active) = none →
        get_sales_zone db = db.zones.find? (fun z => z.is_active))
  ∧ (db.zones.find? (fun z => z.is_active) = none →
        get_sales_zone db = none ∧
        (cart ≠ [] →
          process_sale db userId clientId cart =
            (.err 500 "Zona de ventas no configurada", db))) := by
  refine ⟨fun z h => by rw [get_sales_zone, h], fun h => by rw [get_sales_zone, h], fun h => ?_⟩
  have hm : db.zones.find? (fun z => containsCI z.name "venta" && z.is_active) = none := by
    rw [List.find?_eq_none] at h ⊢
    intro z hz hc
    rw [Bool.and_eq_true] at hc
    exact h z hz hc.2
  have hgz : get_sales_zone db = none := by rw [get_sales_zone, hm, h]
  refine ⟨hgz, fun hne => ?_⟩
  have hE : ¬(cart.isEmpty = true) := by simpa [List.isEmpty_iff] using hne
  rw [process_sale, if_neg hE, hgz]

/-- Witness for C8: the example store with only an inactive zone resolves no
sales zone, and checkout of a non-empty cart fails with the 500 error. -/
theorem get_sales_zone_resolution_witness :
    get_sales_zone dbNoZone = none ∧
    process_sale dbNoZone 7 none [⟨5, 1⟩] =
      (.err 500 "Zona de ventas no configurada", dbNoZone) := by
  have h := (get_sales_zone_resolution dbNoZone 7 none [⟨5, 1⟩]).2.2 rfl
  exact ⟨h.1, h.2 (by decide)⟩

/-! C9: the two stock-aggregation conventions. -/

/-- Splitting the total-stock sum of a product into the rows with positive
quantity and the rows with non-positive quantity. -/
theorem totalStock_split (invs : List Inventory) (pid : Nat) :
    totalStock invs pid =
      ((invs.filter (fun i => i.productId == pid && 0 < i.quantity)).map
          (fun i => i.quantity)).sum +
      ((invs.filter (fun i => i.productId == pid && i.quantity ≤ 0)).map
          (fun i => i.quantity)).sum := by
  induction invs with
  | nil => rfl
  | cons i rest ih =>
    rw [totalStock] at ih ⊢
    by_cases h1 : (i.productId == pid) = true
    · by_cases h2 : (0 : Int) < i.quantity
      · have h3 : ¬(i.quantity ≤ 0) := by omega
        simp [List.filter_cons, h1, h2, h3]
        omega
      · have h3 : i.quantity ≤ 0 := by omega
        simp [List.filter_cons, h1, h2, h3]
        omega
    · simp [List.filter_cons, h1, ih]

/-- Example inventory rows where the two conventions disagree: product 1 has
one positive row and one negative row. -/
def invsMixed : List Inventory := [⟨1, 1, 5⟩, ⟨1, 2, -3⟩]

/-- Example store carrying the mixed inventory rows. -/
def dbMixed : Db := ⟨[zoneV], [⟨1, "P1", "S1", some 10, true⟩], invsMixed, [], [], [], [], []⟩

/-- C9: the search and listing endpoints report a product stock equal to the
sum of quantity over all of its inventory rows, while the stock-lookup
endpoint lists exactly the rows with quantity strictly greater than 0; the
total therefore decomposes as listed-positive rows plus non-positive rows,
and on the mixed example store the two conventions produce different numbers
(total 2 against a single listed row of stock 5). -/
theorem stock_conventions_distinct (db : Db) (pid : Nat) (query : String)
    (page psize : Nat) :
    (∀ r ∈ search_products_for_sale db query, r.stock = totalStock db.inventories r.id)
  ∧ (∀ r ∈ get_all_products_for_sale db page psize, r.stock = totalStock db.inventories r.id)
  ∧ ((get_product_stock_info db pid).map (fun s => s.stock) =
      (db.inventories.filter (fun i => i.productId == pid && 0 < i.quantity)).map
        (fun i => i.quantity))
  ∧ (∀ s ∈ get_product_stock_info db pid, 0 < s.stock)
  ∧ (totalStock db.inventories pid =
      ((get_product_stock_info db pid).map (fun s => s.stock)).sum +
      ((db.inventories.filter (fun i => i.productId == pid && i.quantity ≤ 0)).map
          (fun i => i.quantity)).sum)
  ∧ totalStock dbMixed.inventories 1 = 2
  ∧ (get_product_stock_info dbMixed 1).map (fun s => s.stock) = [5] := by
  have hinfo : (get_product_stock_info db pid).map (fun s => s.stock) =
      (db.inventories.filter (fun i => i.productId == pid && 0 < i.quantity)).map
        (fun i => i.quantity) := by
    rw [get_product_stock_info, List.map_map]
    rfl
  refine ⟨?_, ?_, hinfo, ?_, ?_, rfl, rfl⟩
  · intro r hr
    rw [search_products_for_sale] at hr
    by_cases hq : query.length < 2
    · rw [if_pos hq] at hr
      simp at hr
    · rw [if_neg hq] at hr
      obtain ⟨p, _, rfl⟩ := List.mem_map.mp hr
      rfl
  · intro r hr
    obtain ⟨p, _, rfl⟩ := List.mem_map.mp hr
    rfl
  · intro s hs
    rw [get_product_stock_info] at hs
    obtain ⟨i, hi, rfl⟩ := List.mem_map.mp hs
    have := List.of_mem_filter hi
    rw [Bool.and_eq_true] at this
    simpa using this.2
  · rw [hinfo]
    exact totalStock_split db.inventories pid

/-! C2: carts with failing lines. -/

/-- Characterization of a cart line passing the validation pass: its product
resolves actively, its sales-zone inventory row exists, and the requested
quantity is at most the available quantity. -/
theorem validateLine_eq_nil_iff (db : Db) (zid : Nat) (l : CartLine) :
    validateLine db zid l = [] ↔
      ∃ p inv, findActiveProduct db.products l.id = some p ∧
        findInv db.inventories l.id zid = some inv ∧ l.quantity ≤ inv.quantity := by
  cases hp : findActiveProduct db.products l.id with
  | none => simp [validateLine, hp]
  | some p =>
    cases hi : findInv db.inventories l.id zid with
    | none => simp [validateLine, hp, hi]
    | some inv =>
      by_cases h : inv.quantity < l.quantity
      · simp [validateLine, hp, hi, h]
        try omega
      · simp [validateLine, hp, hi, h]
        try omega

/-- The validation pass accepts the cart exactly when it accepts every line. -/
theorem validateCart_eq_nil_iff (db : Db) (zid : Nat) (cart : List CartLine) :
    validateCart db zid cart = [] ↔ ∀ l ∈ cart, validateLine db zid l = [] := by
  induction cart with
  | nil => simp [validateCart]
  | cons l rest ih => simp [validateCart, ih]

/-- A line produces no error message or exactly one. -/
theorem validateLine_cases (db : Db) (zid : Nat) (l : CartLine) :
    validateLine db zid l = [] ∨ (validateLine db zid l).length = 1 := by
  cases hp : findActiveProduct db.products l.id with
  | none => right; simp [validateLine, hp]
  | some p =>
    cases hi : findInv db.inventories l.id zid with
    | none => right; simp [validateLine, hp, hi]
    | some inv =>
      by_cases h : inv.quantity < l.quantity
      · right; simp [validateLine, hp, hi, h]
      · left; simp [validateLine, hp, hi, h]

/-- The collected error list holds exactly one message per failing cart line. -/
theorem validateCart_length (db : Db) (zid : Nat) (cart : List CartLine) :
    (validateCart db zid cart).length =
      cart.countP (fun l => !(validateLine db zid l).isEmpty) := by
  induction cart with
  | nil => rfl
  | cons l rest ih =>
    rw [validateCart, List.length_append, ih, List.countP_cons]
    rcases validateLine_cases db zid l with h | h
    · simp [h]
    · have hne : validateLine db zid l ≠ [] := by
        intro he
        rw [he] at h
        simp at h
      simp [h, List.isEmpty_iff, hne]
      omega

/-- A failing member line makes the collected error list non-empty. -/
theorem validateCart_ne_nil_of_mem (db : Db) (zid : Nat) (l : CartLine)
    (cart : List CartLine) (hl : l ∈ cart) (h : validateLine db zid l ≠ []) :
    validateCart db zid cart ≠ [] := by
  intro hc
  rw [validateCart_eq_nil_iff] at hc
  exact h (hc l hl)

/-- C2: when some cart line fails (missing or inactive product, absent
sales-zone inventory row, or requested quantity above the available one),
process_sale answers with the 400 error joining the collected messages and
the store is unchanged; the error list carries one message per failing line
rather than stopping at the first, and a line fails exactly when it violates
one of those three conditions. -/
theorem process_sale_invalid_line_rejected (db : Db) (userId : Nat)
    (clientId : Option Nat) (cart : List CartLine) (zone : Zone)
    (hz : get_sales_zone db = some zone)
    (hbad : ∃ l ∈ cart, ¬∃ p inv,
        findActiveProduct db.products l.id = some p ∧
        findInv db.inventories l.id zone.id = some inv ∧ l.quantity ≤ inv.quantity) :
    process_sale db userId clientId cart =
      (.err 400 (String.intercalate "<br>" (validateCart db zone.id cart)), db)
    ∧ (validateCart db zone.id cart).length =
        cart.countP (fun l => !(validateLine db zone.id l).isEmpty)
    ∧ ∀ l ∈ cart, ((validateLine db zone.id l).isEmpty = true ↔
        ∃ p inv, findActiveProduct db.products l.id = some p ∧
          findInv db.inventories l.id zone.id = some inv ∧ l.quantity ≤ inv.quantity) := by
  obtain ⟨l0, hl0, hbad0⟩ := hbad
  have hline : validateLine db zone.id l0 ≠ [] := by
    intro he
    exact hbad0 ((validateLine_eq_nil_iff db zone.id l0).mp he)
  have hcart : validateCart db zone.id cart ≠ [] :=
    validateCart_ne_nil_of_mem _ _ _ _ hl0 hline
  have hne : cart ≠ [] := by
    rintro rfl
    exact absurd hl0 (List.not_mem_nil l0)
  refine ⟨?_, validateCart_length db zone.id cart, fun l _ => ?_⟩
  · have hE : ¬(cart.isEmpty = true) := by simpa [List.isEmpty_iff] using hne
    rw [process_sale, if_neg hE]
    simp only [hz]
    cases hvc : validateCart db zone.id cart with
    | nil => exact absurd hvc hcart
    | cons e es => rfl
  · rw [List.isEmpty_iff]
    exact validateLine_eq_nil_iff db zone.id l

/-- Witness for C2: the spec example cart asking 20 units of product 5
against stock 10 is rejected with the aggregated message and the store keeps
stock 10. -/
theorem process_sale_invalid_line_rejected_witness :
    process_sale dbEx 7 none [⟨5, 20⟩] =
      (.err 400 (String.intercalate "<br>" (validateCart dbEx zoneV.id [⟨5, 20⟩])), dbEx) := by
  refine (process_sale_invalid_line_rejected dbEx 7 none [⟨5, 20⟩] zoneV rfl ?_).1
  refine ⟨⟨5, 20⟩, by simp, ?_⟩
  rintro ⟨p, inv, hp, hi, hq⟩
  have h2 : inv = inv51 := by
    have e : findInv dbEx.inventories (⟨5, 20⟩ : CartLine).id zoneV.id = some inv51 := rfl
    exact (Option.some.inj (e.symm.trans hi)).symm
  rw [h2] at hq
  exact absurd hq (by decide)

/-! C1: successful checkout. -/

/-- Requested quantity of a product accumulated over the cart lines naming it. -/
def cartQty (cart : List CartLine) (pid : Nat) : Int :=
  ((cart.filter (fun l => l.id == pid)).map (fun l => l.quantity)).sum

/-- Unfolding of cartQty over a cons cell. -/
theorem cartQty_cons (l : CartLine) (rest : List CartLine) (pid : Nat) :
    cartQty (l :: rest) pid =
      (if l.id == pid then l.quantity else 0) + cartQty rest pid := by
  by_cases h : (l.id == pid) = true
  · simp [cartQty, List.filter_cons, h]
  · simp [cartQty, List.filter_cons, h]

/-- Uniqueness of the (product, zone) keys over the inventory rows: the
integrity constraint the schema enforces for the ledger. -/
def keysNodup (invs : List Inventory) : Prop :=
  (invs.map (fun i => (i.productId, i.zoneId))).Nodup

instance (invs : List Inventory) : Decidable (keysNodup invs) := by
  unfold keysNodup
  infer_instance

/-- Key uniqueness survives a stock decrement. -/
theorem keysNodup_updateInventory (invs : List Inventory) (pid zid : Nat) (q : Int)
    (h : keysNodup invs) : keysNodup (updateInventory invs pid zid q) := by
  unfold keysNodup at h ⊢
  rw [updateInventory_keys]
  exact h

/-- Helper restating that the row found by find? satisfies the predicate. -/
theorem find?_sat {α : Type} (p : α → Bool) (l : List α) (a : α)
    (h : l.find? p = some a) : p a = true := List.find?_some h

/-- Helper restating that the row found by find? belongs to the list. -/
theorem find?_mem {α : Type} (p : α → Bool) (l : List α) (a : α)
    (h : l.find? p = some a) : a ∈ l := List.mem_of_find?_eq_some h

/-- Presence of an inventory row depends only on the keys of the list. -/
theorem findInv_isSome_iff_mem (invs : List Inventory) (pid zid : Nat) :
    (findInv invs pid zid).isSome ↔
      (pid, zid) ∈ invs.map (fun i => (i.productId, i.zoneId)) := by
  rw [findInv, List.find?_isSome, List.mem_map]
  constructor
  · rintro ⟨i, hi, hpred⟩
    rw [Bool.and_eq_true, beq_iff_eq, beq_iff_eq] at hpred
    exact ⟨i, hi, by rw [hpred.1, hpred.2]⟩
  · rintro ⟨i, hi, hkey⟩
    refine ⟨i, hi, ?_⟩
    rw [Bool.and_eq_true, beq_iff_eq, beq_iff_eq]
    exact ⟨congrArg Prod.fst hkey, congrArg Prod.snd hkey⟩

/-- With unique keys the decrement of one row is a pointwise rewrite of the
whole list. -/
theorem updateInventory_eq_map (invs : List Inventory) (pid zid : Nat) (q : Int)
    (h : keysNodup invs) :
    updateInventory invs pid zid q =
      invs.map (fun i => if i.productId == pid && i.zoneId == zid then
        { i with quantity := i.quantity - q } else i) := by
  induction invs with
  | nil => rfl
  | cons i rest ih =>
    unfold keysNodup at h
    rw [List.map_cons, List.nodup_cons] at h
    obtain ⟨hni, hrest⟩ := h
    by_cases hk : (i.productId == pid && i.zoneId == zid) = true
    · simp only [updateInventory, hk, if_true, List.map_cons]
      congr 1
      have hall : ∀ j ∈ rest,
          (if j.productId == pid && j.zoneId == zid then
            { j with quantity := j.quantity - q } else j) = j := by
        intro j hj
        rw [if_neg]
        intro hjk
        rw [Bool.and_eq_true, beq_iff_eq, beq_iff_eq] at hjk hk
        exact hni (List.mem_map.mpr ⟨j, hj, by rw [hjk.1, hjk.2, hk.1, hk.2]⟩)
      exact ((List.map_congr_left hall).trans (List.map_id' rest)).symm
    · have hk' : (i.productId == pid && i.zoneId == zid) = false := by simpa using hk
      simp only [updateInventory, hk', Bool.false_eq_true, if_false, List.map_cons]
      congr 1
      exact ih hrest

/-- With unique product ids the commit-pass lookup (without the active
filter) returns the same row the validation pass found. -/
theorem findProduct_of_findActive (ps : List Product) (pid : Nat) (p : Product)
    (hnd : (ps.map (fun x => x.id)).Nodup)
    (h : findActiveProduct ps pid = some p) :
    findProduct ps pid = some p := by
  induction ps with
  | nil => simp [findActiveProduct] at h
  | cons x rest ih =>
    rw [List.map_cons, List.nodup_cons] at hnd
    obtain ⟨hx, hrest⟩ := hnd
    by_cases hid : (x.id == pid) = true
    · by_cases hact : x.is_active = true
      · simp only [findActiveProduct, List.find?_cons, hid, hact, Bool.true_and] at h
        simp only [findProduct, List.find?_cons, hid]
        exact h
      · have hact' : x.is_active = false := by simpa using hact
        simp only [findActiveProduct, List.find?_cons, hid, hact', Bool.true_and] at h
        have hpmem : p ∈ rest := find?_mem (fun x => x.id == pid && x.is_active) rest p h
        have hpid := find?_sat (fun x => x.id == pid && x.is_active) rest p h
        simp only [Bool.and_eq_true, beq_iff_eq] at hpid
        exact absurd
          (List.mem_map.mpr ⟨p, hpmem, hpid.1.trans (beq_iff_eq.mp hid).symm⟩) hx
    · have hid' : (x.id == pid) = false := by simpa using hid
      simp only [findActiveProduct, List.find?_cons, hid', Bool.false_and] at h
      simp only [findProduct, List.find?_cons, hid']
      exact ih hrest h

/-- Full characterization of the commit pass on a validated cart: it
succeeds, appends one SaleItem per cart line carrying the commit-time price,
rewrites every sales-zone inventory row by the accumulated requested
quantity of its product, and adds the per-line price-times-quantity amounts
to the running total. -/
theorem commitLines_spec (zid saleId : Nat) (cart : List CartLine) :
    ∀ (db : Db) (tot : Int),
      keysNodup db.inventories →
      (∀ l ∈ cart, (findProduct db.products l.id).isSome ∧
          (findInv db.inventories l.id zid).isSome) →
      commitLines zid saleId db tot cart = some
        ({ db with
            saleItems := db.saleItems ++ cart.map (fun l =>
              ⟨saleId, l.id, l.quantity, currentPrice db.products l.id⟩),
            inventories := db.inventories.map (fun i =>
              if i.zoneId == zid then
                { i with quantity := i.quantity - cartQty cart i.productId }
              else i) },
          tot + (cart.map (fun l => currentPrice db.products l.id * l.quantity)).sum) := by
  induction cart with
  | nil =>
    intro db tot hnd hok
    have hinv : db.inventories.map (fun i =>
        if i.zoneId == zid then
          { i with quantity := i.quantity - cartQty [] i.productId }
        else i) = db.inventories := by
      have hall : ∀ i ∈ db.inventories,
          (if i.zoneId == zid then
            { i with quantity := i.quantity - cartQty [] i.productId }
          else i) = i := by
        intro i _
        by_cases hz' : (i.zoneId == zid) = true
        · rw [if_pos hz']
          show ({ i with quantity := i.quantity - 0 } : Inventory) = i
          simp
        · rw [if_neg hz']
      exact (List.map_congr_left hall).trans (List.map_id' db.inventories)
    simp only [commitLines, List.map_nil, List.append_nil, List.sum_nil, add_zero, hinv]
  | cons l rest ih =>
    intro db tot hnd hok
    obtain ⟨hp0, hi0⟩ := hok l (List.mem_cons_self l rest)
    obtain ⟨p, hp⟩ := Option.isSome_iff_exists.mp hp0
    obtain ⟨inv, hi⟩ := Option.isSome_iff_exists.mp hi0
    have hprice : currentPrice db.products l.id = p.precio_venta.getD 0 := by
      simp only [currentPrice, hp]
    have hnd1 : keysNodup (updateInventory db.inventories l.id zid l.quantity) :=
      keysNodup_updateInventory _ _ _ _ hnd
    have hok1 : ∀ l' ∈ rest,
        (findProduct db.products l'.id).isSome ∧
        (findInv (updateInventory db.inventories l.id zid l.quantity) l'.id zid).isSome := by
      intro l' hl'
      obtain ⟨a, b⟩ := hok l' (List.mem_cons_of_mem _ hl')
      refine ⟨a, ?_⟩
      rw [findInv_isSome_iff_mem, updateInventory_keys]
      rw [findInv_isSome_iff_mem] at b
      exact b
    have hinvmap : (updateInventory db.inventories l.id zid l.quantity).map
        (fun i => if i.zoneId == zid then
          { i with quantity := i.quantity - cartQty rest i.productId } else i) =
        db.inventories.map (fun i => if i.zoneId == zid then
          { i with quantity := i.quantity - cartQty (l :: rest) i.productId } else i) := by
      rw [updateInventory_eq_map db.inventories l.id zid l.quantity hnd, List.map_map]
      apply List.map_congr_left
      intro i _
      simp only [Function.comp]
      by_cases hz' : (i.zoneId == zid) = true
      · by_cases hpid : (i.productId == l.id) = true
        · have hpe : l.id = i.productId := (beq_iff_eq.mp hpid).symm
          simp [hpid, hz', cartQty_cons, hpe.symm]
          try omega
        · have hpid' : (i.productId == l.id) = false := by simpa using hpid
          have hlne : (l.id == i.productId) = false := by
            rw [beq_eq_false_iff_ne] at hpid' ⊢
            exact fun he => hpid' he.symm
          simp [hpid', hlne, hz', cartQty_cons]
          try omega
      · have hz'' : (i.zoneId == zid) = false := by simpa using hz'
        simp [hz'']
    have hstep := ih
      { db with
        saleItems := db.saleItems ++ [⟨saleId, l.id, l.quantity, p.precio_venta.getD 0⟩],
        inventories := updateInventory db.inventories l.id zid l.quantity }
      (tot + p.precio_venta.getD 0 * l.quantity) hnd1 hok1
    simp only [commitLines, hp, hi]
    rw [hstep]
    simp only [Option.some.injEq, Prod.mk.injEq]
    constructor
    · simp [hprice]
      simp only [beq_iff_eq] at hinvmap
      exact hinvmap
    · simp [hprice, add_assoc]

/-- C1: for every non-empty cart in which every line resolves an active
product and a sales-zone inventory row holding at least the requested
quantity, process_sale succeeds, appends exactly one Sale whose total is the
sum over lines of price times quantity, appends exactly one SaleItem per
cart line with price_at_sale the commit-time price of the product, and every
sales-zone inventory row is decremented by the accumulated requested
quantity of its product (rows of other zones are untouched); moreover the
commit-time price of each validated line is the sale price of its active
product.  Key-uniqueness of products and inventory rows is the database
integrity assumption. -/
theorem process_sale_success_spec (db : Db) (userId : Nat) (clientId : Option Nat)
    (cart : List CartLine) (zone : Zone)
    (hne : cart ≠ [])
    (hz : get_sales_zone db = some zone)
    (hndP : (db.products.map (fun p => p.id)).Nodup)
    (hndI : keysNodup db.inventories)
    (hok : ∀ l ∈ cart, ∃ p inv,
        findActiveProduct db.products l.id = some p ∧
        findInv db.inventories l.id zone.id = some inv ∧
        l.quantity ≤ inv.quantity) :
    process_sale db userId clientId cart =
      (SaleOutcome.ok (db.sales.length + 1)
        ((cart.map (fun l => currentPrice db.products l.id * l.quantity)).sum),
       { db with
          sales := db.sales ++ [⟨db.sales.length + 1, clientId, userId,
            (cart.map (fun l => currentPrice db.products l.id * l.quantity)).sum⟩],
          saleItems := db.saleItems ++ cart.map (fun l =>
            ⟨db.sales.length + 1, l.id, l.quantity, currentPrice db.products l.id⟩),
          inventories := db.inventories.map (fun i =>
            if i.zoneId == zone.id then
              { i with quantity := i.quantity - cartQty cart i.productId }
            else i) })
    ∧ ∀ l ∈ cart, ∀ p, findActiveProduct db.products l.id = some p →
        currentPrice db.products l.id = p.precio_venta.getD 0 := by
  constructor
  · have hE : ¬(cart.isEmpty = true) := by simpa [List.isEmpty_iff] using hne
    have hv : validateCart db zone.id cart = [] :=
      (validateCart_eq_nil_iff _ _ _).mpr (fun l hl =>
        (validateLine_eq_nil_iff _ _ _).mpr (hok l hl))
    have hok' : ∀ l ∈ cart, (findProduct db.products l.id).isSome ∧
        (findInv db.inventories l.id zone.id).isSome := by
      intro l hl
      obtain ⟨p, inv, hp, hi, _⟩ := hok l hl
      refine ⟨?_, ?_⟩
      · simp [findProduct_of_findActive db.products l.id p hndP hp]
      · simp [hi]
    have hc := commitLines_spec zone.id (db.sales.length + 1) cart db 0 hndI hok'
    rw [process_sale, if_neg hE]
    simp [hz, hv, hc]
  · intro l _ p hp
    simp only [currentPrice, findProduct_of_findActive db.products l.id p hndP hp]

/-- Witness for C1: the spec example — cart of 2 units of product 5 at price
1000 with stock 10 — yields sale total 2000, one sale row, one item row at
price 1000, and stock 8. -/
theorem process_sale_success_spec_witness :
    process_sale dbEx 7 none [⟨5, 2⟩] =
      (SaleOutcome.ok 1 2000,
        { dbEx with
            sales := [⟨1, none, 7, 2000⟩],
            saleItems := [⟨1, 5, 2, 1000⟩],
            inventories := [⟨5, 1, 8⟩] }) := by
  have hok : ∀ l ∈ ([⟨5, 2⟩] : List CartLine), ∃ p inv,
      findActiveProduct dbEx.products l.id = some p ∧
      findInv dbEx.inventories l.id zoneV.id = some inv ∧
      l.quantity ≤ inv.quantity := by
    intro l hl
    rw [List.mem_singleton] at hl
    subst hl
    exact ⟨prod5, inv51, rfl, rfl, by decide⟩
  have h := (process_sale_success_spec dbEx 7 none [⟨5, 2⟩] zoneV (by decide) rfl
    (by decide) (by decide) hok).1
  rw [h]
  rfl

/-! C6: adding the same product twice to a pending order. -/

/-- find? skips a prefix in which nothing matches. -/
theorem find?_append_of_none {α : Type} (p : α → Bool) (l1 l2 : List α)
    (h : l1.find? p = none) : (l1 ++ l2).find? p = l2.find? p := by
  induction l1 with
  | nil => rfl
  | cons a l ih =>
    by_cases ha : p a = true
    · simp only [List.find?_cons, ha] at h
      exact Option.noConfusion h
    · have ha' : p a = false := by simpa using ha
      simp only [List.find?_cons, ha'] at h
      simp only [List.cons_append, List.find?_cons, ha']
      exact ih h

/-- When no earlier row matches, the upsert update lands on the appended row:
its quantity grows by the new amount and its unit price is overwritten. -/
theorem updateOrderItem_append (items : List SupplierOrderItem) (oid pid : Nat)
    (q q0 : Int) (up up0 : Option Int)
    (h : ∀ it ∈ items, ¬(it.orderId == oid && it.productId == pid) = true) :
    updateOrderItem (items ++ [⟨oid, pid, q0, up0⟩]) oid pid q up =
      items ++ [⟨oid, pid, q0 + q, up⟩] := by
  induction items with
  | nil =>
    simp only [List.nil_append, updateOrderItem]
    rw [if_pos (by simp)]
  | cons it rest ih =>
    have hit := h it (List.mem_cons_self it rest)
    simp only [List.cons_append, updateOrderItem]
    rw [if_neg hit]
    exact congrArg (List.cons it) (ih (fun j hj => h j (List.mem_cons_of_mem _ hj)))

/-- Evaluation of add_product_to_order on the create path: permission held,
order pending, positive quantity, active product related to the supplier, no
existing row for the pair. -/
theorem add_product_to_order_create (db : Db) (orderPk pid : Nat) (q : Int)
    (order : SupplierOrder) (product : Product) (ps : ProductSupplier)
    (ho : db.supplierOrders.find? (fun o => o.id == orderPk) = some order)
    (hst : order.status = "PENDING") (hq : 0 < q)
    (hp : findActiveProduct db.products pid = some product)
    (hps : db.productSuppliers.find?
        (fun s => s.productId == pid && s.supplierId == order.supplierId) = some ps)
    (hnone : db.supplierOrderItems.find?
        (fun it => it.orderId == orderPk && it.productId == pid) = none) :
    add_product_to_order db true orderPk pid q =
      (.ok "created" ⟨orderPk, pid, q, resolveUnitPrice ps.costo product.precio_venta⟩,
       { db with supplierOrderItems := db.supplierOrderItems ++
          [⟨orderPk, pid, q, resolveUnitPrice ps.costo product.precio_venta⟩] }) := by
  rw [add_product_to_order]
  simp [ho, hst, hp, hps, hnone, show ¬(q ≤ 0) from by omega]

/-- Evaluation of add_product_to_order on the update path: an existing row
for the pair is merged in place. -/
theorem add_product_to_order_update (db : Db) (orderPk pid : Nat) (q : Int)
    (order : SupplierOrder) (product : Product) (ps : ProductSupplier)
    (it0 it1 : SupplierOrderItem)
    (ho : db.supplierOrders.find? (fun o => o.id == orderPk) = some order)
    (hst : order.status = "PENDING") (hq : 0 < q)
    (hp : findActiveProduct db.products pid = some product)
    (hps : db.productSuppliers.find?
        (fun s => s.productId == pid && s.supplierId == order.supplierId) = some ps)
    (hsome : db.supplierOrderItems.find?
        (fun it => it.orderId == orderPk && it.productId == pid) = some it0)
    (hfind1 : (updateOrderItem db.supplierOrderItems orderPk pid q
        (resolveUnitPrice ps.costo product.precio_venta)).find?
        (fun it => it.orderId == orderPk && it.productId == pid) = some it1) :
    add_product_to_order db true orderPk pid q =
      (.ok "updated" it1,
       { db with supplierOrderItems := (updateOrderItem db.supplierOrderItems orderPk pid q
          (resolveUnitPrice ps.costo product.precio_venta)) }) := by
  rw [add_product_to_order]
  simp [ho, hst, hp, hps, hsome, hfind1, show ¬(q ≤ 0) from by omega]

/-- C6: starting from a pending order with no row for the product, two calls
of add_product_to_order with positive quantities q1 and q2 leave exactly one
SupplierOrderItem for the (order, product) pair, its quantity is q1 + q2
rather than two rows, its unit price is the supplier cost or sale-price
fallback resolved at the second call, and the second call reports the
updated action. -/
theorem add_twice_merges (db : Db) (orderPk pid : Nat) (q1 q2 : Int)
    (order : SupplierOrder) (product : Product) (ps : ProductSupplier)
    (ho : db.supplierOrders.find? (fun o => o.id == orderPk) = some order)
    (hst : order.status = "PENDING")
    (hp : findActiveProduct db.products pid = some product)
    (hps : db.productSuppliers.find?
        (fun s => s.productId == pid && s.supplierId == order.supplierId) = some ps)
    (hq1 : 0 < q1) (hq2 : 0 < q2)
    (hnone : db.supplierOrderItems.find?
        (fun it => it.orderId == orderPk && it.productId == pid) = none) :
    (add_product_to_order (add_product_to_order db true orderPk pid q1).2
        true orderPk pid q2).1
      = .ok "updated" ⟨orderPk, pid, q1 + q2, resolveUnitPrice ps.costo product.precio_venta⟩
    ∧ ((add_product_to_order (add_product_to_order db true orderPk pid q1).2
        true orderPk pid q2).2).supplierOrderItems.filter
        (fun it => it.orderId == orderPk && it.productId == pid)
      = [⟨orderPk, pid, q1 + q2, resolveUnitPrice ps.costo product.precio_venta⟩] := by
  have hall : ∀ it ∈ db.supplierOrderItems,
      ¬((it.orderId == orderPk && it.productId == pid) = true) :=
    List.find?_eq_none.mp hnone
  have e1 := add_product_to_order_create db orderPk pid q1 order product ps
    ho hst hq1 hp hps hnone
  have hdb1 : (add_product_to_order db true orderPk pid q1).2 =
      { db with supplierOrderItems := db.supplierOrderItems ++
        [⟨orderPk, pid, q1, resolveUnitPrice ps.costo product.precio_venta⟩] } := by
    rw [e1]
  rw [hdb1]
  have hsome1 : (db.supplierOrderItems ++
      ([⟨orderPk, pid, q1, resolveUnitPrice ps.costo product.precio_venta⟩] :
        List SupplierOrderItem)).find?
      (fun it => it.orderId == orderPk && it.productId == pid) =
      some ⟨orderPk, pid, q1, resolveUnitPrice ps.costo product.precio_venta⟩ := by
    rw [find?_append_of_none _ _ _ hnone]
    simp [List.find?_cons]
  have hupd : updateOrderItem (db.supplierOrderItems ++
      ([⟨orderPk, pid, q1, resolveUnitPrice ps.costo product.precio_venta⟩] :
        List SupplierOrderItem))
      orderPk pid q2 (resolveUnitPrice ps.costo product.precio_venta) =
      db.supplierOrderItems ++
        [⟨orderPk, pid, q1 + q2, resolveUnitPrice ps.costo product.precio_venta⟩] :=
    updateOrderItem_append db.supplierOrderItems orderPk pid q2 q1
      (resolveUnitPrice ps.costo product.precio_venta)
      (resolveUnitPrice ps.costo product.precio_venta) hall
  have hfind1 : (updateOrderItem (db.supplierOrderItems ++
      ([⟨orderPk, pid, q1, resolveUnitPrice ps.costo product.precio_venta⟩] :
        List SupplierOrderItem))
      orderPk pid q2 (resolveUnitPrice ps.costo product.precio_venta)).find?
      (fun it => it.orderId == orderPk && it.productId == pid) =
      some ⟨orderPk, pid, q1 + q2, resolveUnitPrice ps.costo product.precio_venta⟩ := by
    rw [hupd, find?_append_of_none _ _ _ hnone]
    simp [List.find?_cons]
  have e2 := add_product_to_order_update
    ({ db with supplierOrderItems := db.supplierOrderItems ++
      [⟨orderPk, pid, q1, resolveUnitPrice ps.costo product.precio_venta⟩] } : Db)
    orderPk pid q2 order product ps
    ⟨orderPk, pid, q1, resolveUnitPrice ps.costo product.precio_venta⟩
    ⟨orderPk, pid, q1 + q2, resolveUnitPrice ps.costo product.precio_venta⟩
    ho hst hq2 hp hps hsome1 hfind1
  rw [e2]
  refine ⟨rfl, ?_⟩
  have hnil : db.supplierOrderItems.filter
      (fun it => it.orderId == orderPk && it.productId == pid) = [] := by
    rw [List.filter_eq_nil_iff]
    exact hall
  show (updateOrderItem (db.supplierOrderItems ++
      ([⟨orderPk, pid, q1, resolveUnitPrice ps.costo product.precio_venta⟩] :
        List SupplierOrderItem))
      orderPk pid q2 (resolveUnitPrice ps.costo product.precio_venta)).filter
      (fun it => it.orderId == orderPk && it.productId == pid) = _
  rw [hupd, List.filter_append, hnil, List.nil_append]
  simp [List.filter_cons]

/-- Witness for C6: adding product 5 to the pending order 1 with quantities
2 then 3 leaves one row of quantity 5 priced at the supplier cost. -/
theorem add_twice_merges_witness :
    (add_product_to_order (add_product_to_order dbOrdP true 1 5 2).2 true 1 5 3).1
      = .ok "updated" ⟨1, 5, 2 + 3, resolveUnitPrice psEx.costo prod5.precio_venta⟩
    ∧ ((add_product_to_order (add_product_to_order dbOrdP true 1 5 2).2 true 1 5 3).2).supplierOrderItems.filter
        (fun it => it.orderId == 1 && it.productId == 5)
      = [⟨1, 5, 2 + 3, resolveUnitPrice psEx.costo prod5.precio_venta⟩] :=
  add_twice_merges dbOrdP 1 5 2 3 orderP prod5 psEx rfl rfl rfl rfl
    (by decide) (by decide) rfl

end Lilis
